import Mathlib

/-!
Verification of the MIDI file decoder (`src/bits.rs`, `src/parse.rs`).

The Rust byte-cursor functions take `&mut &[u8]`: they advance the slice in
place, also on error paths.  We model a cursor as a `List Nat` of byte values
and each extractor returns its `Result` together with the slice it leaves
behind.  `running_status` (`&mut Option<u8>`) is threaded the same way.
Errors are the closed taxonomy of decode failures; the `unreachable!` in
`extract_midi` is modelled by a dedicated error value so that its
(un)reachability can be stated.
-/

namespace MidiRs

/-- Rust `bits::msb`: high nibble of a byte (`target >> 4`). -/
def bits.msb (target : Nat) : Nat := target >>> 4

/-- Rust `bits::lsb`: low nibble of a byte (`target & 0b1111`). -/
def bits.lsb (target : Nat) : Nat := target &&& 0b1111

/-- Rust `bits::msb_set`: whether bit 7 is set (`(target >> 7) == 1`). -/
def bits.msb_set (target : Nat) : Bool := (target >>> 7) == 1

def HEADER_MARKER : Nat := 0x4d546864
def TRACK_MARKER : Nat := 0x4d54726b
def EXPECTED_INFO_SIZE_BYTES : Nat := 6
def NOTE_OFF_STATUS : Nat := 0b1000
def NOTE_ON_STATUS : Nat := 0b1001
def PROGRAM_CHANGE_STATUS : Nat := 0b1100
def CHANNEL_PRESSURE_STATUS : Nat := 0b1101
def SYSTEM_MESSAGE_STATUS : Nat := 0b1111

/-- The closed error taxonomy of the decoder (each Rust `Error::new` site,
named as in the design document), plus a value standing for the
`unreachable!` panic in `extract_midi`. -/
inductive MidiError where
  | malformedHeaderMarker
  | unexpectedHeaderSize
  | invalidFileFormat
  | malformedTrackMarker
  | unexpectedEndOfStream
  | vlqTooLong
  | sysexLengthExceedsAvailable
  | metaLengthExceedsAvailable
  | invalidEndOfTrackLength
  | invalidSetTempoLength
  | invalidMetaEventTag
  | dataByteWithoutRunningStatus
  | panicSysexInExtractMidi
  deriving Repr, DecidableEq

inductive FileFormat where
  | singleTrack
  | multipleTrack
  | multipleSong
  deriving Repr, DecidableEq

inductive MetaEvent where
  | unimplemented
  | endOfTrack
  | setTempo (tempo : Nat)
  deriving Repr, DecidableEq

inductive MidiEvent where
  | unimplemented
  | noteOn (note velocity channel : Nat)
  | noteOff (note velocity channel : Nat)
  deriving Repr, DecidableEq

inductive EventType where
  | sysex
  | meta (m : MetaEvent)
  | midi (m : MidiEvent)
  deriving Repr, DecidableEq

structure Event where
  ty : EventType
  delta_time : Nat
  deriving Repr, DecidableEq

structure HeaderData where
  format : FileFormat
  num_tracks : Nat
  division : Nat
  deriving Repr, DecidableEq

/-- Rust `extract_byte`: pop the first byte of the slice, `UnexpectedEof`
(here `unexpectedEndOfStream`) when the slice is empty. -/
def extract_byte (bytes : List Nat) : Except MidiError Nat × List Nat :=
  match bytes with
  | [] => (.error .unexpectedEndOfStream, [])
  | b :: rest => (.ok b, rest)

/-- The loop body of Rust `extract_vlq` (`for i in 0..4`), with the
accumulator `vlq : u32` (shifts wrap modulo `2^32`) and the loop index. -/
def extract_vlq_go (vlq i : Nat) : List Nat → Except MidiError Nat × List Nat
  | [] => (.error .unexpectedEndOfStream, [])
  | b :: rest =>
    let vlq' := ((vlq <<< 7) % 4294967296) ||| (b &&& 0x7f)
    if bits.msb_set b then
      if i = 3 then (.error .vlqTooLong, rest)
      else extract_vlq_go vlq' (i + 1) rest
    else (.ok vlq', rest)

/-- Rust `extract_vlq`: decode a variable-length quantity of at most 4
bytes from the front of the slice. -/
def extract_vlq (bytes : List Nat) : Except MidiError Nat × List Nat :=
  extract_vlq_go 0 0 bytes

/-- Big-endian `u32` from the first 4 entries of a byte list
(Rust `u32::from_be_bytes`). -/
def u32_from_be (l : List Nat) : Nat :=
  l.getD 0 0 * 16777216 + l.getD 1 0 * 65536 + l.getD 2 0 * 256 + l.getD 3 0

/-- Big-endian `u16` from two bytes (Rust `u16::from_be_bytes`). -/
def u16_from_be (a b : Nat) : Nat := a * 256 + b

/-- Model of `BufReader::read_exact` into a buffer of `n` bytes:
succeeds with the first `n` bytes and the rest of the stream, fails with
`UnexpectedEof` when fewer than `n` bytes remain. -/
def read_exact (n : Nat) (stream : List Nat) :
    Except MidiError (List Nat × List Nat) :=
  if stream.length < n then .error .unexpectedEndOfStream
  else .ok (stream.take n, stream.drop n)

/-- Rust `parse_header`: marker `MThd`, length exactly 6, then
format / track count / division, each big-endian. -/
def parse_header (stream : List Nat) :
    Except MidiError (HeaderData × List Nat) :=
  match read_exact 4 stream with
  | .error e => .error e
  | .ok (marker_buf, s1) =>
    if u32_from_be marker_buf ≠ HEADER_MARKER then
      .error .malformedHeaderMarker
    else
      match read_exact 4 s1 with
      | .error e => .error e
      | .ok (length_buf, s2) =>
        if u32_from_be length_buf ≠ EXPECTED_INFO_SIZE_BYTES then
          .error .unexpectedHeaderSize
        else
          match read_exact EXPECTED_INFO_SIZE_BYTES s2 with
          | .error e => .error e
          | .ok (data_buf, s3) =>
            match u16_from_be (data_buf.getD 0 0) (data_buf.getD 1 0) with
            | 0 => .ok (⟨.singleTrack,
                u16_from_be (data_buf.getD 2 0) (data_buf.getD 3 0),
                u16_from_be (data_buf.getD 4 0) (data_buf.getD 5 0)⟩, s3)
            | 1 => .ok (⟨.multipleTrack,
                u16_from_be (data_buf.getD 2 0) (data_buf.getD 3 0),
                u16_from_be (data_buf.getD 4 0) (data_buf.getD 5 0)⟩, s3)
            | 2 => .ok (⟨.multipleSong,
                u16_from_be (data_buf.getD 2 0) (data_buf.getD 3 0),
                u16_from_be (data_buf.getD 4 0) (data_buf.getD 5 0)⟩, s3)
            | _ => .error .invalidFileFormat

/-- Rust `extract_meta`: one event-type byte, a VLQ length, a
remaining-bytes check, then dispatch on the event-type byte; every
success path finally skips `len` payload bytes. -/
def extract_meta (bytes : List Nat) : Except MidiError EventType × List Nat :=
  match extract_byte bytes with
  | (.error e, r) => (.error e, r)
  | (.ok event_type, r) =>
    match extract_vlq r with
    | (.error e, r2) => (.error e, r2)
    | (.ok len, r2) =>
      if r2.length < len then (.error .metaLengthExceedsAvailable, r2)
      else if event_type = 0x2f then
        if len ≠ 0 then (.error .invalidEndOfTrackLength, r2)
        else (.ok (.meta .endOfTrack), r2.drop len)
      else if event_type = 0x51 then
        if len ≠ 3 then (.error .invalidSetTempoLength, r2)
        else
          let tempo := u32_from_be [0, r2.getD 0 0, r2.getD 1 0, r2.getD 2 0]
          (.ok (.meta (.setTempo tempo)), r2.drop len)
      else if (0x01 ≤ event_type ∧ event_type ≤ 0x07) ∨ event_type = 0x54 ∨
          event_type = 0x58 ∨ event_type = 0x59 ∨ event_type = 0x7f then
        (.ok (.meta .unimplemented), r2.drop len)
      else (.error .invalidMetaEventTag, r2)

/-- The tail of Rust `extract_midi` after the running-status update: the
`match bits::msb(status)` dispatch.  `running_status` already holds the
effective status (`Some` on every real call; the `none` arm is the
`ok_or_else` guard), `first_byte` is the byte `extract_event` consumed and
`using_running_status` tells whether it was a data byte. -/
def extract_midi_go (running_status : Option Nat) (first_byte : Nat)
    (using_running_status : Bool) (bytes : List Nat) :
    Except MidiError EventType × Option Nat × List Nat :=
  match running_status with
  | none => (.error .dataByteWithoutRunningStatus, none, bytes)
  | some status =>
    if bits.msb status = NOTE_OFF_STATUS then
      match extract_byte bytes with
      | (.error e, r) => (.error e, some status, r)
      | (.ok note, r) =>
        match extract_byte r with
        | (.error e, r2) => (.error e, some status, r2)
        | (.ok velocity, r2) =>
          (.ok (.midi (.noteOff note velocity (bits.lsb first_byte))),
            some status, r2)
    else if bits.msb status = NOTE_ON_STATUS then
      match extract_byte bytes with
      | (.error e, r) => (.error e, some status, r)
      | (.ok note, r) =>
        match extract_byte r with
        | (.error e, r2) => (.error e, some status, r2)
        | (.ok velocity, r2) =>
          (.ok (.midi (.noteOn note velocity (bits.lsb first_byte))),
            some status, r2)
    else if bits.msb status = SYSTEM_MESSAGE_STATUS then
      if bits.lsb status = 0b0000 then
        (.error .panicSysexInExtractMidi, some status, bytes)
      else if bits.lsb status = 0b0010 then
        match extract_byte bytes with
        | (.error e, r) => (.error e, some status, r)
        | (.ok _, r) =>
          match extract_byte r with
          | (.error e, r2) => (.error e, some status, r2)
          | (.ok _, r2) => (.ok (.midi .unimplemented), some status, r2)
      else if bits.lsb status = 0b0011 then
        match extract_byte bytes with
        | (.error e, r) => (.error e, some status, r)
        | (.ok _, r) => (.ok (.midi .unimplemented), some status, r)
      else (.ok (.midi .unimplemented), some status, bytes)
    else if bits.msb status = PROGRAM_CHANGE_STATUS ∨
        bits.msb status = CHANNEL_PRESSURE_STATUS then
      if using_running_status then (.ok (.midi .unimplemented), some status, bytes)
      else
        match extract_byte bytes with
        | (.error e, r) => (.error e, some status, r)
        | (.ok _, r) => (.ok (.midi .unimplemented), some status, r)
    else
      if using_running_status then
        match extract_byte bytes with
        | (.error e, r) => (.error e, some status, r)
        | (.ok _, r) => (.ok (.midi .unimplemented), some status, r)
      else
        match extract_byte bytes with
        | (.error e, r) => (.error e, some status, r)
        | (.ok _, r) =>
          match extract_byte r with
          | (.error e, r2) => (.error e, some status, r2)
          | (.ok _, r2) => (.ok (.midi .unimplemented), some status, r2)

/-- Rust `extract_midi`: update `running_status` from `first_byte`
(status byte when its high bit is set, otherwise a data byte that demands
an existing running status), then dispatch on the effective status. -/
def extract_midi (running_status : Option Nat) (first_byte : Nat)
    (bytes : List Nat) : Except MidiError EventType × Option Nat × List Nat :=
  if bits.msb_set first_byte then
    extract_midi_go (some first_byte) first_byte false bytes
  else
    match running_status with
    | none => (.error .dataByteWithoutRunningStatus, none, bytes)
    | some s => extract_midi_go (some s) first_byte true bytes

/-- Rust `extract_event`: route on the first byte — sysex (`0xF0`/`0xF7`),
meta (`0xFF`) or channel-voice/system MIDI event. -/
def extract_event (running_status : Option Nat) (bytes : List Nat) :
    Except MidiError EventType × Option Nat × List Nat :=
  match extract_byte bytes with
  | (.error e, r) => (.error e, running_status, r)
  | (.ok first, r) =>
    if first = 0xf0 ∨ first = 0xf7 then
      match extract_vlq r with
      | (.error e, r2) => (.error e, running_status, r2)
      | (.ok len, r2) =>
        if r2.length < len then
          (.error .sysexLengthExceedsAvailable, running_status, r2)
        else (.ok .sysex, running_status, r2.drop len)
    else if first = 0xff then
      match extract_meta r with
      | (res, r2) => (res, running_status, r2)
    else extract_midi running_status first r

theorem extract_byte_len (bytes : List Nat) (res : Except MidiError Nat)
    (r : List Nat) (h : extract_byte bytes = (res, r)) :
    r.length ≤ bytes.length := by
  cases bytes <;> simp only [extract_byte, Prod.mk.injEq] at h <;>
    obtain ⟨-, rfl⟩ := h <;> simp

theorem extract_vlq_go_snd_lt (bytes : List Nat) : ∀ (vlq i : Nat),
    bytes ≠ [] → (extract_vlq_go vlq i bytes).2.length < bytes.length := by
  induction bytes with
  | nil => intro _ _ h; exact absurd rfl h
  | cons b rest ih =>
    intro vlq i _
    simp only [extract_vlq_go]
    split
    · split
      · simp
      · by_cases hr : rest = []
        · subst hr; simp [extract_vlq_go]
        · exact Nat.lt_succ_of_lt (ih _ _ hr)
    · simp

theorem extract_vlq_snd_lt (bytes : List Nat) (h : bytes ≠ []) :
    (extract_vlq bytes).2.length < bytes.length :=
  extract_vlq_go_snd_lt bytes 0 0 h

theorem extract_vlq_len (bytes : List Nat) (res : Except MidiError Nat)
    (r : List Nat) (h : extract_vlq bytes = (res, r)) :
    r.length ≤ bytes.length := by
  by_cases hb : bytes = []
  · subst hb
    simp only [extract_vlq, extract_vlq_go, Prod.mk.injEq] at h
    obtain ⟨-, rfl⟩ := h
    simp
  · have hlt := extract_vlq_snd_lt bytes hb
    rw [h] at hlt
    exact Nat.le_of_lt hlt

theorem extract_meta_len (bytes : List Nat) (res : Except MidiError EventType)
    (r : List Nat) (h : extract_meta bytes = (res, r)) :
    r.length ≤ bytes.length := by
  unfold extract_meta at h
  split at h
  next e r1 heq =>
    simp only [Prod.mk.injEq] at h
    obtain ⟨-, rfl⟩ := h
    exact extract_byte_len _ _ _ heq
  next et r1 heq =>
    have hb := extract_byte_len _ _ _ heq
    split at h
    next e r2 heq2 =>
      simp only [Prod.mk.injEq] at h
      obtain ⟨-, rfl⟩ := h
      have hv := extract_vlq_len _ _ _ heq2
      omega
    next len r2 heq2 =>
      have hv := extract_vlq_len _ _ _ heq2
      have hd : (r2.drop len).length ≤ r2.length := by simp
      repeat' split at h
      all_goals simp only [Prod.mk.injEq] at h
      all_goals obtain ⟨-, rfl⟩ := h
      all_goals omega

theorem extract_midi_go_len (rs : Option Nat) (fb : Nat) (urs : Bool)
    (bytes : List Nat) (res : Except MidiError EventType) (rs' : Option Nat)
    (r : List Nat) (h : extract_midi_go rs fb urs bytes = (res, rs', r)) :
    r.length ≤ bytes.length := by
  match bytes with
  | [] =>
    simp only [extract_midi_go, extract_byte] at h
    repeat' split at h
    all_goals simp only [Prod.mk.injEq] at h
    all_goals obtain ⟨-, -, rfl⟩ := h
    all_goals simp
  | [x] =>
    simp only [extract_midi_go, extract_byte] at h
    repeat' split at h
    all_goals simp only [Prod.mk.injEq] at h
    all_goals obtain ⟨-, -, rfl⟩ := h
    all_goals simp
  | x :: y :: t =>
    simp only [extract_midi_go, extract_byte] at h
    repeat' split at h
    all_goals simp only [Prod.mk.injEq] at h
    all_goals obtain ⟨-, -, rfl⟩ := h
    all_goals simp
    all_goals omega

theorem extract_midi_len (rs : Option Nat) (fb : Nat) (bytes : List Nat)
    (res : Except MidiError EventType) (rs' : Option Nat) (r : List Nat)
    (h : extract_midi rs fb bytes = (res, rs', r)) :
    r.length ≤ bytes.length := by
  unfold extract_midi at h
  split at h
  · exact extract_midi_go_len _ _ _ _ _ _ _ h
  · split at h
    · simp only [Prod.mk.injEq] at h
      obtain ⟨-, -, rfl⟩ := h
      exact Nat.le_refl _
    · exact extract_midi_go_len _ _ _ _ _ _ _ h

theorem extract_event_len (rs : Option Nat) (bytes : List Nat)
    (res : Except MidiError EventType) (rs' : Option Nat) (r : List Nat)
    (h : extract_event rs bytes = (res, rs', r)) :
    r.length ≤ bytes.length := by
  unfold extract_event at h
  split at h
  next e r1 heq =>
    simp only [Prod.mk.injEq] at h
    obtain ⟨-, -, rfl⟩ := h
    exact extract_byte_len _ _ _ heq
  next first r1 heq =>
    have hb := extract_byte_len _ _ _ heq
    split at h
    · split at h
      next e r2 heq2 =>
        simp only [Prod.mk.injEq] at h
        obtain ⟨-, -, rfl⟩ := h
        have hv := extract_vlq_len _ _ _ heq2
        omega
      next len r2 heq2 =>
        have hv := extract_vlq_len _ _ _ heq2
        have hd : (r2.drop len).length ≤ r2.length := by simp
        split at h
        all_goals simp only [Prod.mk.injEq] at h
        all_goals obtain ⟨-, -, rfl⟩ := h
        all_goals omega
    · split at h
      · split at h
        next mres r2 heq2 =>
          simp only [Prod.mk.injEq] at h
          obtain ⟨-, -, rfl⟩ := h
          have hm := extract_meta_len _ _ _ heq2
          omega
      · have hm := extract_midi_len _ _ _ _ _ _ h
        omega

/-- The event loop of Rust `parse_track`
(`while cur.len() > 0 { delta_time; event; push }`). -/
def parse_track_loop (running_status : Option Nat) (cur : List Nat)
    (events : List Event) : Except MidiError (List Event) :=
  if hc : cur = [] then .ok events
  else
    match h1 : extract_vlq cur with
    | (.error e, _) => .error e
    | (.ok delta_time, cur1) =>
      match h2 : extract_event running_status cur1 with
      | (.error e, _, _) => .error e
      | (.ok ty, rs2, cur2) =>
        parse_track_loop rs2 cur2 (events ++ [⟨ty, delta_time⟩])
termination_by cur.length
decreasing_by
  have hv := extract_vlq_snd_lt cur hc
  rw [h1] at hv
  have hv' : cur1.length < cur.length := hv
  have he := extract_event_len running_status cur1 _ _ _ h2
  omega

/-- Rust `parse_track`: marker `MTrk`, big-endian length, `length` body
bytes, then the event loop with running status initialised to `None`. -/
def parse_track (stream : List Nat) : Except MidiError (List Event) :=
  match read_exact 4 stream with
  | .error e => .error e
  | .ok (marker_buf, s1) =>
    if u32_from_be marker_buf ≠ TRACK_MARKER then .error .malformedTrackMarker
    else
      match read_exact 4 s1 with
      | .error e => .error e
      | .ok (length_buf, s2) =>
        match read_exact (u32_from_be length_buf) s2 with
        | .error e => .error e
        | .ok (track_buf, _) => parse_track_loop none track_buf []

/-- Value denoted by a list of VLQ byte groups: 7 low bits per byte,
most-significant group first. -/
def vlq_value (enc : List Nat) : Nat :=
  enc.foldl (fun acc b => acc * 128 + b % 128) 0

/-- A valid VLQ encoding of `v` for this decoder: nonempty, at most 4 bytes
(the decoder's cap), byte-valued entries, continuation bit set on every byte
but the last, clear on the last, denoting `v`. -/
def valid_vlq_encoding (enc : List Nat) (v : Nat) : Prop :=
  enc ≠ [] ∧ enc.length ≤ 4 ∧ (∀ b ∈ enc, b < 256) ∧
    (∀ b ∈ enc.dropLast, 128 ≤ b) ∧ enc.getLastD 0 < 128 ∧ vlq_value enc = v

/-- Invariant on the running-status cell: it never holds the sysex status
`0xF0` (such a first byte is routed away by `extract_event`). -/
def rs_ok : Option Nat → Prop
  | none => True
  | some s => s ≠ 0xf0

theorem shiftRight7 (b : Nat) : b >>> 7 = b / 128 := by
  rw [Nat.shiftRight_eq_div_pow]

theorem shiftRight4 (b : Nat) : b >>> 4 = b / 16 := by
  rw [Nat.shiftRight_eq_div_pow]

theorem and15 (b : Nat) : b &&& 15 = b % 16 := by
  have h := Nat.and_pow_two_sub_one_eq_mod b 4
  norm_num at h
  exact h

theorem and127 (b : Nat) : b &&& 127 = b % 128 := by
  have h := Nat.and_pow_two_sub_one_eq_mod b 7
  norm_num at h
  exact h

theorem msb_set_true (b : Nat) (h1 : 128 ≤ b) (h2 : b < 256) :
    bits.msb_set b = true := by
  simp only [bits.msb_set, shiftRight7, beq_iff_eq]
  omega

theorem msb_set_false (b : Nat) (h : b < 128) : bits.msb_set b = false := by
  simp only [bits.msb_set, shiftRight7]
  simp only [beq_eq_false_iff_ne, ne_eq]
  omega

/-- A status byte with system high nibble and zero low nibble is exactly
`0xF0`. -/
theorem status_eq_240 (s : Nat) (h1 : bits.msb s = SYSTEM_MESSAGE_STATUS)
    (h2 : bits.lsb s = 0) : s = 240 := by
  simp only [bits.msb, bits.lsb, shiftRight4, and15, SYSTEM_MESSAGE_STATUS] at h1 h2
  omega

/-- One accumulator step of the VLQ loop does not overflow `u32` while the
accumulator is small, and is plain base-128 accumulation. -/
theorem vlq_acc_step (acc b : Nat) (h : acc < 33554432) :
    ((acc <<< 7) % 4294967296) ||| (b &&& 0x7f) = acc * 128 + b % 128 := by
  have h1 : acc <<< 7 = acc * 128 := by
    rw [Nat.shiftLeft_eq]
  have h2 : acc * 128 % 4294967296 = acc * 128 := Nat.mod_eq_of_lt (by omega)
  have h3 : b &&& 0x7f = b % 128 := and127 b
  have h4 : (2 ^ 7) * acc + b % 128 = (2 ^ 7) * acc ||| b % 128 :=
    Nat.mul_add_lt_is_or (by omega) acc
  norm_num at h4
  rw [h1, h2, h3, Nat.mul_comm acc 128, ← h4]

/-- Decoding a valid VLQ encoding from any loop state that has room for it
yields base-128 accumulation and stops exactly after the encoding. -/
theorem extract_vlq_go_encoding :
    ∀ (enc : List Nat), enc ≠ [] →
    ∀ (rest : List Nat) (acc i : Nat),
    enc.length + i ≤ 4 →
    (∀ b ∈ enc, b < 256) →
    (∀ b ∈ enc.dropLast, 128 ≤ b) →
    enc.getLastD 0 < 128 →
    acc < 2 ^ (7 * i) →
    extract_vlq_go acc i (enc ++ rest) =
      (.ok (enc.foldl (fun a b => a * 128 + b % 128) acc), rest) := by
  intro enc
  induction enc with
  | nil => intro h; exact absurd rfl h
  | cons b tail ih =>
    intro _ rest acc i hlen hbytes hmid hlast hacc
    have hi : i ≤ 3 := by
      simp only [List.length_cons] at hlen; omega
    have hpow : (2 : Nat) ^ (7 * i) ≤ 2 ^ 21 :=
      Nat.pow_le_pow_right (by norm_num) (by omega)
    have h21 : (2 : Nat) ^ 21 = 2097152 := by norm_num
    have hacc25 : acc < 33554432 := by omega
    cases tail with
    | nil =>
      have hb : b < 128 := by simpa using hlast
      simp [List.cons_append, List.nil_append, extract_vlq_go,
        vlq_acc_step acc b hacc25, msb_set_false b hb]
    | cons c t2 =>
      have hb128 : 128 ≤ b := hmid b (by simp)
      have hb256 : b < 256 := hbytes b (by simp)
      have hi2 : ¬ i = 3 := by
        simp only [List.length_cons] at hlen; omega
      have hstep : acc * 128 + b % 128 < 2 ^ (7 * (i + 1)) := by
        have : (2 : Nat) ^ (7 * (i + 1)) = 2 ^ (7 * i) * 128 := by
          rw [Nat.mul_add, Nat.pow_add]
        omega
      have hrec := ih (by simp) rest (acc * 128 + b % 128) (i + 1)
        (by simp only [List.length_cons] at hlen ⊢; omega)
        (fun x hx => hbytes x (by simp [hx]))
        (fun x hx => hmid x (by simpa using Or.inr hx))
        (by simpa using hlast) hstep
      have happ : (b :: c :: t2) ++ rest = b :: (c :: t2 ++ rest) := by simp
      rw [happ]
      generalize hL : c :: t2 ++ rest = L at hrec ⊢
      simp only [extract_vlq_go, vlq_acc_step acc b hacc25,
        msb_set_true b hb128 hb256, if_true, if_neg hi2]
      rw [hrec]
      simp [List.foldl]

/-- `extract_byte` only ever fails with `unexpectedEndOfStream`. -/
theorem extract_byte_error (bytes : List Nat) (e : MidiError) (r : List Nat)
    (h : extract_byte bytes = (.error e, r)) : e = .unexpectedEndOfStream := by
  cases bytes with
  | nil =>
    simp only [extract_byte, Prod.mk.injEq, Except.error.injEq] at h
    exact h.1.symm
  | cons b t => simp [extract_byte] at h

/-- `extract_vlq_go` only ever fails with `unexpectedEndOfStream` or
`vlqTooLong`. -/
theorem extract_vlq_go_error (bytes : List Nat) : ∀ (acc i : Nat) (e : MidiError)
    (r : List Nat), extract_vlq_go acc i bytes = (.error e, r) →
    e = .unexpectedEndOfStream ∨ e = .vlqTooLong := by
  induction bytes with
  | nil =>
    intro acc i e r h
    simp only [extract_vlq_go, Prod.mk.injEq, Except.error.injEq] at h
    exact Or.inl h.1.symm
  | cons b rest ih =>
    intro acc i e r h
    simp only [extract_vlq_go] at h
    split at h
    · split at h
      · simp only [Prod.mk.injEq, Except.error.injEq] at h
        exact Or.inr h.1.symm
      · exact ih _ _ _ _ h
    · simp at h

theorem extract_vlq_error (bytes : List Nat) (e : MidiError) (r : List Nat)
    (h : extract_vlq bytes = (.error e, r)) :
    e = .unexpectedEndOfStream ∨ e = .vlqTooLong :=
  extract_vlq_go_error bytes 0 0 e r h

/-- The VLQ loop never leaves fewer than `4 - i` bytes consumed in total. -/
theorem extract_vlq_go_consume (bytes : List Nat) : ∀ (acc i : Nat), i ≤ 3 →
    bytes.length ≤ (extract_vlq_go acc i bytes).2.length + (4 - i) := by
  induction bytes with
  | nil => intro acc i hi; simp [extract_vlq_go]
  | cons b rest ih =>
    intro acc i hi
    simp only [extract_vlq_go]
    split
    · split
      next h3 =>
        subst h3; simp
      next h3 =>
        have := ih (((acc <<< 7) % 4294967296) ||| (b &&& 0x7f)) (i + 1) (by omega)
        simp only [List.length_cons]
        omega
    · simp only [List.length_cons]
      omega

/-- Any successful run of the VLQ loop from a small accumulator yields a
value of at most 28 bits. -/
theorem extract_vlq_go_ok_bound (bytes : List Nat) :
    ∀ (acc i v : Nat) (r : List Nat), i ≤ 3 → acc < 2 ^ (7 * i) →
    extract_vlq_go acc i bytes = (.ok v, r) → v ≤ 0x0FFFFFFF := by
  induction bytes with
  | nil =>
    intro acc i v r _ _ h
    simp [extract_vlq_go] at h
  | cons b rest ih =>
    intro acc i v r hi hacc h
    have hpow : (2 : Nat) ^ (7 * i) ≤ 2 ^ 21 :=
      Nat.pow_le_pow_right (by norm_num) (by omega)
    have h21 : (2 : Nat) ^ 21 = 2097152 := by norm_num
    have hacc25 : acc < 33554432 := by omega
    simp only [extract_vlq_go, vlq_acc_step acc b hacc25] at h
    split at h
    · split at h
      · simp at h
      next h3 =>
        have hstep : acc * 128 + b % 128 < 2 ^ (7 * (i + 1)) := by
          have : (2 : Nat) ^ (7 * (i + 1)) = 2 ^ (7 * i) * 128 := by
            rw [Nat.mul_add, Nat.pow_add]
          all_goals norm_num
          omega
        exact ih _ (i + 1) _ _ (by omega) hstep h
    · simp only [Prod.mk.injEq, Except.ok.injEq] at h
      obtain ⟨hv, -⟩ := h
      omega

/-- `read_exact` only ever fails with `unexpectedEndOfStream`. -/
theorem read_exact_error (n : Nat) (s : List Nat) (e : MidiError)
    (h : read_exact n s = .error e) : e = .unexpectedEndOfStream := by
  unfold read_exact at h
  split at h
  · injection h with h'
    exact h'.symm
  · simp at h

/-- `extract_meta` never produces the `unreachable!` panic value. -/
theorem extract_meta_no_panic (bytes : List Nat) :
    (extract_meta bytes).1 ≠ Except.error MidiError.panicSysexInExtractMidi := by
  unfold extract_meta
  split
  next e r heq =>
    have he := extract_byte_error _ _ _ heq
    subst he
    simp
  next et r heq =>
    split
    next e r2 heq2 =>
      rcases extract_vlq_error _ _ _ heq2 with rfl | rfl <;> simp
    next len r2 heq2 =>
      repeat' split
      all_goals simp

/-- The status dispatch of `extract_midi` never reaches the `unreachable!`
branch when the effective status byte is not `0xF0`, and it leaves the
running-status cell untouched. -/
theorem extract_midi_go_no_panic (s fb : Nat) (urs : Bool) (bytes : List Nat)
    (hs : s ≠ 240) :
    (extract_midi_go (some s) fb urs bytes).1 ≠
      Except.error MidiError.panicSysexInExtractMidi ∧
    (extract_midi_go (some s) fb urs bytes).2.1 = some s := by
  have h240 : ¬ (bits.msb s = SYSTEM_MESSAGE_STATUS ∧ bits.lsb s = 0) := by
    rintro ⟨a, b⟩
    exact hs (status_eq_240 s a b)
  match bytes with
  | [] =>
    simp only [extract_midi_go, extract_byte]
    repeat' split
    all_goals simp_all
  | [x] =>
    simp only [extract_midi_go, extract_byte]
    repeat' split
    all_goals simp_all
  | x :: y :: t =>
    simp only [extract_midi_go, extract_byte]
    repeat' split
    all_goals simp_all

/-- `extract_midi` never panics when the running-status invariant holds and
the consumed first byte is not `0xF0`, and it preserves the invariant. -/
theorem extract_midi_no_panic (rs : Option Nat) (fb : Nat) (bytes : List Nat)
    (hrs : rs_ok rs) (hfb : fb ≠ 240) :
    (extract_midi rs fb bytes).1 ≠
      Except.error MidiError.panicSysexInExtractMidi ∧
    rs_ok (extract_midi rs fb bytes).2.1 := by
  unfold extract_midi
  split
  · have h := extract_midi_go_no_panic fb fb false bytes hfb
    exact ⟨h.1, by rw [h.2]; exact hfb⟩
  · split
    next => exact ⟨by simp, trivial⟩
    next s =>
      have hs : s ≠ 240 := hrs
      have h := extract_midi_go_no_panic s fb true bytes hs
      exact ⟨h.1, by rw [h.2]; exact hs⟩

/-- `extract_event` never panics when the running-status invariant holds,
and it preserves the invariant: the byte it hands to `extract_midi` is
never `0xF0` (that value is routed to the sysex branch first). -/
theorem extract_event_no_panic (rs : Option Nat) (bytes : List Nat)
    (hrs : rs_ok rs) :
    (extract_event rs bytes).1 ≠
      Except.error MidiError.panicSysexInExtractMidi ∧
    rs_ok (extract_event rs bytes).2.1 := by
  unfold extract_event
  split
  next e r heq =>
    have he := extract_byte_error _ _ _ heq
    subst he
    exact ⟨by simp, hrs⟩
  next first r heq =>
    split
    · split
      next e r2 heq2 =>
        rcases extract_vlq_error _ _ _ heq2 with rfl | rfl <;>
          exact ⟨by simp, hrs⟩
      next len r2 heq2 =>
        split
        · exact ⟨by simp, hrs⟩
        · exact ⟨by simp, hrs⟩
    · split
      · split
        next mres r2 heq2 =>
          constructor
          · have hm := extract_meta_no_panic r
            rw [heq2] at hm
            exact hm
          · exact hrs
      next hnot _ =>
        have hfb : first ≠ 240 := fun hh => hnot (Or.inl hh)
        exact extract_midi_no_panic rs first r hrs hfb

/-- Every delta time pushed by the track loop is a decoded VLQ, hence at
most 28 bits. -/
theorem parse_track_loop_delta : ∀ (n : Nat) (rs : Option Nat) (cur : List Nat)
    (events evs : List Event), cur.length ≤ n →
    (∀ e ∈ events, e.delta_time ≤ 0x0FFFFFFF) →
    parse_track_loop rs cur events = .ok evs →
    ∀ e ∈ evs, e.delta_time ≤ 0x0FFFFFFF := by
  intro n
  induction n with
  | zero =>
    intro rs cur events evs hlen hev h
    have hcur : cur = [] := by
      cases cur with
      | nil => rfl
      | cons a t => simp at hlen
    subst hcur
    rw [parse_track_loop] at h
    rw [dif_pos rfl] at h
    injection h with h'
    subst h'
    exact hev
  | succ n ihn =>
    intro rs cur events evs hlen hev h
    by_cases hcur : cur = []
    · subst hcur
      rw [parse_track_loop] at h
      rw [dif_pos rfl] at h
      injection h with h'
      subst h'
      exact hev
    · rw [parse_track_loop] at h
      rw [dif_neg hcur] at h
      split at h
      · exact absurd h (by simp)
      next delta_time cur1 heq1 =>
        split at h
        · exact absurd h (by simp)
        next ty rs2 cur2 heq2 =>
          have hlt : cur1.length < cur.length := by
            have hv := extract_vlq_snd_lt cur hcur
            rw [heq1] at hv
            exact hv
          have hle : cur2.length ≤ cur1.length :=
            extract_event_len rs cur1 _ _ _ heq2
          have hdelta : delta_time ≤ 0x0FFFFFFF :=
            extract_vlq_go_ok_bound cur 0 0 delta_time cur1 (by omega)
              (by norm_num) heq1
          refine ihn rs2 cur2 (events ++ [⟨ty, delta_time⟩]) evs
            (by omega) ?_ h
          intro e he
          rcases List.mem_append.mp he with hin | hin
          · exact hev e hin
          · simp only [List.mem_singleton] at hin
            subst hin
            exact hdelta

/-- The track loop never surfaces the `unreachable!` panic value while the
running-status invariant holds. -/
theorem parse_track_loop_no_panic : ∀ (n : Nat) (rs : Option Nat)
    (cur : List Nat) (events : List Event), cur.length ≤ n → rs_ok rs →
    parse_track_loop rs cur events ≠
      Except.error MidiError.panicSysexInExtractMidi := by
  intro n
  induction n with
  | zero =>
    intro rs cur events hlen hrs h
    have hcur : cur = [] := by
      cases cur with
      | nil => rfl
      | cons a t => simp at hlen
    subst hcur
    rw [parse_track_loop] at h
    rw [dif_pos rfl] at h
    simp at h
  | succ n ihn =>
    intro rs cur events hlen hrs h
    by_cases hcur : cur = []
    · subst hcur
      rw [parse_track_loop] at h
      rw [dif_pos rfl] at h
      simp at h
    · rw [parse_track_loop] at h
      rw [dif_neg hcur] at h
      split at h
      next e cur1 heq1 =>
        injection h with h'
        rcases extract_vlq_error _ _ _ heq1 with rfl | rfl <;> cases h'
      next delta_time cur1 heq1 =>
        split at h
        next e rs2 cur2 heq2 =>
          injection h with h'
          subst h'
          have hnp := (extract_event_no_panic rs cur1 hrs).1
          rw [heq2] at hnp
          exact hnp rfl
        next ty rs2 cur2 heq2 =>
          have hlt : cur1.length < cur.length := by
            have hv := extract_vlq_snd_lt cur hcur
            rw [heq1] at hv
            exact hv
          have hle : cur2.length ≤ cur1.length :=
            extract_event_len rs cur1 _ _ _ heq2
          have hrs2 : rs_ok rs2 := by
            have hp := (extract_event_no_panic rs cur1 hrs).2
            rw [heq2] at hp
            exact hp
          exact ihn rs2 cur2 (events ++ [⟨ty, delta_time⟩]) (by omega) hrs2 h

/-- C1: the spec's running-status example fails on the code.  After
`extract_event` decodes the fresh Note-On `90 40 40`, decoding the bare
data bytes `3C 40` does not treat the already-read `0x3C` as the note:
the Note-On arm re-reads note and velocity from the stream, so it takes
`0x40` as the note, runs off the end looking for a velocity, and fails
with `unexpectedEndOfStream` instead of producing a second Note-On with
note `0x3C`. -/
theorem claim_C1_running_status_reuse_loses_byte :
    extract_event none [0x90, 0x40, 0x40] =
      (.ok (.midi (.noteOn 0x40 0x40 0)), some 0x90, []) ∧
    extract_event (some 0x90) [0x3C, 0x40] =
      (.error .unexpectedEndOfStream, some 0x90, []) := by
  constructor <;> rfl

/-- C2: the channel of a decoded note event is the low nibble of the first
byte read, not of the stored status byte.  Reusing running status `0x95`
(Note On, channel 5) on the data byte `0x3C` yields channel `0xC`, the low
nibble of the data byte, while the status byte's low nibble is 5. -/
theorem claim_C2_channel_from_first_byte :
    extract_midi (some 0x95) 0x3C [0x40, 0x40] =
      (.ok (.midi (.noteOn 0x40 0x40 0xC)), some 0x95, []) ∧
    bits.lsb 0x95 = 5 := by
  constructor <;> rfl

/-- C3 counterexample: with a fresh Control-Change status byte `0xB0`
(high nibble `0b1011`, one of the "other" channel-voice classes) the
decoder consumes 2 additional bytes, not 1 as the claim states: from the
byte list `[1, 2, 3]` the cursor ends at `[3]`, not `[2, 3]`. -/
theorem claim_C3_counterexample :
    extract_midi none 0xB0 [1, 2, 3] =
      (.ok (.midi .unimplemented), some 0xB0, [3]) ∧
    ([3] : List Nat) ≠ [2, 3] := by
  exact ⟨rfl, by simp⟩

/-- C3 (amended): for a channel-voice event whose effective status byte
has a high nibble other than Note Off, Note On, Program Change, Channel
Pressure or System, the decoder consumes 2 additional bytes when the
first byte read was a fresh status byte and 1 additional byte when
running status was reused, and classifies the event `Unimplemented`. -/
theorem claim_C3_two_data_byte_skip (s fb x y : Nat) (t : List Nat)
    (h8 : bits.msb s ≠ NOTE_OFF_STATUS) (h9 : bits.msb s ≠ NOTE_ON_STATUS)
    (h12 : bits.msb s ≠ PROGRAM_CHANGE_STATUS)
    (h13 : bits.msb s ≠ CHANNEL_PRESSURE_STATUS)
    (h15 : bits.msb s ≠ SYSTEM_MESSAGE_STATUS) :
    (bits.msb_set fb = false →
      extract_midi (some s) fb (x :: y :: t) =
        (.ok (.midi .unimplemented), some s, y :: t)) ∧
    (128 ≤ s → s < 256 →
      extract_midi none s (x :: y :: t) =
        (.ok (.midi .unimplemented), some s, t)) := by
  constructor
  · intro hfb
    simp [extract_midi, extract_midi_go, extract_byte, hfb, h8, h9, h12, h13, h15]
  · intro hs1 hs2
    simp [extract_midi, extract_midi_go, extract_byte,
      msb_set_true s hs1 hs2, h8, h9, h12, h13, h15]

theorem claim_C3_two_data_byte_skip_witness :
    extract_midi (some 0xB0) 0x10 [1, 2, 3] =
      (.ok (.midi .unimplemented), some 0xB0, [2, 3]) ∧
    extract_midi none 0xB0 [1, 2, 3] =
      (.ok (.midi .unimplemented), some 0xB0, [3]) := by
  have h := claim_C3_two_data_byte_skip 0xB0 0x10 1 2 [3] (by decide)
    (by decide) (by decide) (by decide) (by decide)
  exact ⟨h.1 (by decide), h.2 (by decide) (by decide)⟩

/-- C8: a data byte (high bit clear) beginning an event while the
running-status cell is absent yields the fatal
`dataByteWithoutRunningStatus` error and produces no event. -/
theorem claim_C8_data_byte_without_running_status (b : Nat) (rest : List Nat)
    (hb : b < 0x80) :
    extract_event none (b :: rest) =
      (.error .dataByteWithoutRunningStatus, none, rest) := by
  have h1 : ¬ (b = 0xf0 ∨ b = 0xf7) := by omega
  have h2 : ¬ b = 0xff := by omega
  simp [extract_event, extract_byte, extract_midi, h1, h2, msb_set_false b hb]

theorem claim_C8_data_byte_without_running_status_witness :
    extract_event none [0x3C, 0x40] =
      (.error .dataByteWithoutRunningStatus, none, [0x40]) :=
  claim_C8_data_byte_without_running_status 0x3C [0x40] (by decide)

/-- C4: decoding any valid VLQ encoding of a value in `[0, 0x0FFFFFFF]`
(at most 4 groups of 7 bits, most-significant group first, continuation
bit on every byte but the last) recovers exactly that value and advances
the cursor exactly past the encoding's bytes. -/
theorem claim_C4_vlq_roundtrip (enc : List Nat) (v : Nat) (rest : List Nat)
    (hv : v ≤ 0x0FFFFFFF) (henc : valid_vlq_encoding enc v) :
    extract_vlq (enc ++ rest) = (.ok v, rest) := by
  obtain ⟨h1, h2, h3, h4, h5, h6⟩ := henc
  have hrun := extract_vlq_go_encoding enc h1 rest 0 0 (by omega) h3 h4 h5
    (by norm_num)
  have h6' : enc.foldl (fun a b => a * 128 + b % 128) 0 = v := h6
  rw [h6'] at hrun
  exact hrun

theorem claim_C4_vlq_roundtrip_witness :
    extract_vlq [0x81, 0x00, 0x05] = (.ok 128, [0x05]) := by
  have h := claim_C4_vlq_roundtrip [0x81, 0x00] 128 [0x05] (by norm_num)
    ⟨by simp, by simp, by decide, by decide, by decide, by decide⟩
  simpa using h

/-- C5: the VLQ decoder fails with `vlqTooLong` on any input whose first 4
bytes all have the high bit set, with those 4 bytes consumed; fails with
`unexpectedEndOfStream` on any input that ends (the empty input included)
before a byte with clear high bit; and never consumes more than 4 bytes. -/
theorem claim_C5_vlq_error_paths :
    (∀ (a b c d : Nat) (rest : List Nat),
      128 ≤ a → a < 256 → 128 ≤ b → b < 256 → 128 ≤ c → c < 256 →
      128 ≤ d → d < 256 →
      extract_vlq (a :: b :: c :: d :: rest) = (.error .vlqTooLong, rest)) ∧
    (∀ bytes : List Nat, bytes.length ≤ 3 →
      (∀ x ∈ bytes, 128 ≤ x ∧ x < 256) →
      extract_vlq bytes = (.error .unexpectedEndOfStream, [])) ∧
    (∀ bytes : List Nat, bytes.length ≤ (extract_vlq bytes).2.length + 4) := by
  refine ⟨?_, ?_, ?_⟩
  · intro a b c d rest ha ha' hb hb' hc hc' hd hd'
    simp [extract_vlq, extract_vlq_go, msb_set_true a ha ha',
      msb_set_true b hb hb', msb_set_true c hc hc', msb_set_true d hd hd']
  · intro bytes hlen hall
    match bytes, hlen with
    | [], _ => rfl
    | [a], _ =>
      obtain ⟨ha, ha'⟩ := hall a (by simp)
      simp [extract_vlq, extract_vlq_go, msb_set_true a ha ha']
    | [a, b], _ =>
      obtain ⟨ha, ha'⟩ := hall a (by simp)
      obtain ⟨hb, hb'⟩ := hall b (by simp)
      simp [extract_vlq, extract_vlq_go, msb_set_true a ha ha',
        msb_set_true b hb hb']
    | [a, b, c], _ =>
      obtain ⟨ha, ha'⟩ := hall a (by simp)
      obtain ⟨hb, hb'⟩ := hall b (by simp)
      obtain ⟨hc, hc'⟩ := hall c (by simp)
      simp [extract_vlq, extract_vlq_go, msb_set_true a ha ha',
        msb_set_true b hb hb', msb_set_true c hc hc']
  · intro bytes
    exact extract_vlq_go_consume bytes 0 0 (by omega)

theorem claim_C5_vlq_error_paths_witness :
    extract_vlq [0x80, 0x81, 0x82, 0x83, 0x05] = (.error .vlqTooLong, [0x05]) ∧
    extract_vlq [0x80, 0x80] = (.error .unexpectedEndOfStream, []) := by
  constructor
  · exact claim_C5_vlq_error_paths.1 0x80 0x81 0x82 0x83 [0x05] (by decide)
      (by decide) (by decide) (by decide) (by decide) (by decide) (by decide)
      (by decide)
  · exact claim_C5_vlq_error_paths.2.1 [0x80, 0x80] (by decide) (by decide)

/-- C6: meta-event framing: End-of-track (`0x2F`) demands declared length
0 and consumes no payload; Set-tempo (`0x51`) demands length 3 and decodes
the big-endian 24-bit payload (`07 A1 20` gives 500000); any tag outside
the recognised set is the fatal `invalidMetaEventTag`; and on success the
cursor ends exactly `len` bytes past the length field. -/
theorem claim_C6_meta_framing (t : Nat) (r r2 : List Nat) (len : Nat)
    (ht : extract_vlq r = (.ok len, r2)) (hroom : len ≤ r2.length) :
    (t = 0x2f → len ≠ 0 →
      extract_meta (t :: r) = (.error .invalidEndOfTrackLength, r2)) ∧
    (t = 0x2f → len = 0 →
      extract_meta (t :: r) = (.ok (.meta .endOfTrack), r2)) ∧
    (t = 0x51 → len ≠ 3 →
      extract_meta (t :: r) = (.error .invalidSetTempoLength, r2)) ∧
    (extract_meta [0x51, 0x03, 0x07, 0xA1, 0x20] =
      (.ok (.meta (.setTempo 500000)), [])) ∧
    (t ≠ 0x2f → t ≠ 0x51 → ¬ (0x01 ≤ t ∧ t ≤ 0x07) → t ≠ 0x54 → t ≠ 0x58 →
      t ≠ 0x59 → t ≠ 0x7f →
      extract_meta (t :: r) = (.error .invalidMetaEventTag, r2)) ∧
    (∀ res final, extract_meta (t :: r) = (.ok res, final) →
      final = r2.drop len) := by
  have hnl : ¬ (r2.length < len) := by omega
  refine ⟨?_, ?_, ?_, ?_, ?_, ?_⟩
  · intro h2f hlen0
    subst h2f
    simp [extract_meta, extract_byte, ht, hnl, hlen0]
  · intro h2f hlen0
    subst h2f
    subst hlen0
    simp [extract_meta, extract_byte, ht, hnl]
  · intro h51 hlen3
    subst h51
    simp [extract_meta, extract_byte, ht, hnl, hlen3]
  · rfl
  · intro h2f h51 hrange h54 h58 h59 h7f
    simp [extract_meta, extract_byte, ht, hnl, h2f, h51, hrange, h54, h58,
      h59, h7f]
  · intro res final h
    simp only [extract_meta, extract_byte, ht] at h
    rw [if_neg hnl] at h
    repeat' split at h
    all_goals simp only [Prod.mk.injEq] at h
    all_goals first
      | exact h.2.symm
      | exact absurd h.1 (by simp)

theorem claim_C6_meta_framing_witness :
    extract_meta [0x2f, 0x00] = (.ok (.meta .endOfTrack), []) := by
  have h := claim_C6_meta_framing 0x2f [0x00] [] 0 (by rfl) (by simp)
  exact h.2.1 rfl rfl

/-- `read_exact` on a long enough stream returns the prefix and the rest. -/
theorem read_exact_cons_ok (n : Nat) (s : List Nat) (h : n ≤ s.length) :
    read_exact n s = .ok (s.take n, s.drop n) := by
  unfold read_exact
  rw [if_neg (by omega)]

/-- C7: the header decoder fails with `malformedHeaderMarker` when the
first 4 bytes are not `MThd`, with `unexpectedHeaderSize` when the
big-endian length is not 6, and with `invalidFileFormat` when the format
code is not 0, 1 or 2; on success it consumes exactly 14 bytes and maps
format codes 0/1/2 to the three enumeration values; the example header
`4D 54 68 64 00 00 00 06 00 01 00 02 00 60` decodes to MultipleTrack,
2 tracks, division `0x60`. -/
theorem claim_C7_parse_header :
    (∀ (b0 b1 b2 b3 : Nat) (rest : List Nat),
      b0 < 256 → b1 < 256 → b2 < 256 → b3 < 256 →
      [b0, b1, b2, b3] ≠ [0x4d, 0x54, 0x68, 0x64] →
      parse_header (b0 :: b1 :: b2 :: b3 :: rest) =
        .error .malformedHeaderMarker) ∧
    (∀ (l0 l1 l2 l3 : Nat) (rest : List Nat),
      u32_from_be [l0, l1, l2, l3] ≠ 6 →
      parse_header (0x4d :: 0x54 :: 0x68 :: 0x64 :: l0 :: l1 :: l2 :: l3 ::
        rest) = .error .unexpectedHeaderSize) ∧
    (∀ (f0 f1 d2 d3 d4 d5 : Nat) (rest : List Nat),
      2 < u16_from_be f0 f1 →
      parse_header (0x4d :: 0x54 :: 0x68 :: 0x64 :: 0 :: 0 :: 0 :: 6 ::
        f0 :: f1 :: d2 :: d3 :: d4 :: d5 :: rest) =
        .error .invalidFileFormat) ∧
    (∀ (d2 d3 d4 d5 : Nat) (rest : List Nat),
      parse_header (0x4d :: 0x54 :: 0x68 :: 0x64 :: 0 :: 0 :: 0 :: 6 ::
        0 :: 0 :: d2 :: d3 :: d4 :: d5 :: rest) =
        .ok (⟨.singleTrack, u16_from_be d2 d3, u16_from_be d4 d5⟩, rest)) ∧
    (∀ (d2 d3 d4 d5 : Nat) (rest : List Nat),
      parse_header (0x4d :: 0x54 :: 0x68 :: 0x64 :: 0 :: 0 :: 0 :: 6 ::
        0 :: 1 :: d2 :: d3 :: d4 :: d5 :: rest) =
        .ok (⟨.multipleTrack, u16_from_be d2 d3, u16_from_be d4 d5⟩, rest)) ∧
    (∀ (d2 d3 d4 d5 : Nat) (rest : List Nat),
      parse_header (0x4d :: 0x54 :: 0x68 :: 0x64 :: 0 :: 0 :: 0 :: 6 ::
        0 :: 2 :: d2 :: d3 :: d4 :: d5 :: rest) =
        .ok (⟨.multipleSong, u16_from_be d2 d3, u16_from_be d4 d5⟩, rest)) ∧
    (parse_header [0x4d, 0x54, 0x68, 0x64, 0x00, 0x00, 0x00, 0x06,
        0x00, 0x01, 0x00, 0x02, 0x00, 0x60] =
      .ok (⟨.multipleTrack, 2, 0x60⟩, [])) := by
  refine ⟨?_, ?_, ?_, ?_, ?_, ?_, ?_⟩
  · intro b0 b1 b2 b3 rest h0 h1 h2 h3 hsne
    have hne : u32_from_be [b0, b1, b2, b3] ≠ HEADER_MARKER := by
      intro hcontra
      apply hsne
      simp only [u32_from_be, HEADER_MARKER, List.getD_cons_zero,
        List.getD_cons_succ] at hcontra
      have hdig : b0 = 0x4d ∧ b1 = 0x54 ∧ b2 = 0x68 ∧ b3 = 0x64 := by omega
      simp [hdig.1, hdig.2.1, hdig.2.2.1, hdig.2.2.2]
    unfold parse_header
    rw [read_exact_cons_ok 4 (b0 :: b1 :: b2 :: b3 :: rest)
      (by simp only [List.length_cons]; omega)]
    rw [show List.take 4 (b0 :: b1 :: b2 :: b3 :: rest) = [b0, b1, b2, b3]
      from rfl]
    rw [show List.drop 4 (b0 :: b1 :: b2 :: b3 :: rest) = rest from rfl]
    simp [hne]
  · intro l0 l1 l2 l3 rest hne6
    have hne6' : u32_from_be [l0, l1, l2, l3] ≠ EXPECTED_INFO_SIZE_BYTES :=
      hne6
    have hre1 : read_exact 4
        (0x4d :: 0x54 :: 0x68 :: 0x64 :: l0 :: l1 :: l2 :: l3 :: rest) =
        .ok ([0x4d, 0x54, 0x68, 0x64], l0 :: l1 :: l2 :: l3 :: rest) := by
      rw [read_exact_cons_ok 4 _ (by simp only [List.length_cons]; omega)]
      rfl
    have hre2 : read_exact 4 (l0 :: l1 :: l2 :: l3 :: rest) =
        .ok ([l0, l1, l2, l3], rest) := by
      rw [read_exact_cons_ok 4 _ (by simp only [List.length_cons]; omega)]
      rfl
    unfold parse_header
    simp [hre1, hre2, hne6',
      show u32_from_be [0x4d, 0x54, 0x68, 0x64] = HEADER_MARKER from by decide]
  · intro f0 f1 d2 d3 d4 d5 rest hfmt
    obtain ⟨m, hm⟩ : ∃ m, u16_from_be f0 f1 = m + 3 :=
      ⟨u16_from_be f0 f1 - 3, by omega⟩
    have hre1 : read_exact 4 (0x4d :: 0x54 :: 0x68 :: 0x64 :: 0 :: 0 :: 0 ::
        6 :: f0 :: f1 :: d2 :: d3 :: d4 :: d5 :: rest) =
        .ok ([0x4d, 0x54, 0x68, 0x64],
          0 :: 0 :: 0 :: 6 :: f0 :: f1 :: d2 :: d3 :: d4 :: d5 :: rest) := by
      rw [read_exact_cons_ok 4 _ (by simp only [List.length_cons]; omega)]
      rfl
    have hre2 : read_exact 4
        (0 :: 0 :: 0 :: 6 :: f0 :: f1 :: d2 :: d3 :: d4 :: d5 :: rest) =
        .ok ([0, 0, 0, 6], f0 :: f1 :: d2 :: d3 :: d4 :: d5 :: rest) := by
      rw [read_exact_cons_ok 4 _ (by simp only [List.length_cons]; omega)]
      rfl
    have hre3 : read_exact EXPECTED_INFO_SIZE_BYTES
        (f0 :: f1 :: d2 :: d3 :: d4 :: d5 :: rest) =
        .ok ([f0, f1, d2, d3, d4, d5], rest) :=
      read_exact_cons_ok 6 _ (by simp only [List.length_cons]; omega)
    unfold parse_header
    simp [hre1, hre2, hre3, hm,
      show u32_from_be [0x4d, 0x54, 0x68, 0x64] = HEADER_MARKER from by decide,
      show u32_from_be [0, 0, 0, 6] = EXPECTED_INFO_SIZE_BYTES from by decide]
  · intro d2 d3 d4 d5 rest
    have hre1 : read_exact 4 (0x4d :: 0x54 :: 0x68 :: 0x64 :: 0 :: 0 :: 0 ::
        6 :: 0 :: 0 :: d2 :: d3 :: d4 :: d5 :: rest) =
        .ok ([0x4d, 0x54, 0x68, 0x64],
          0 :: 0 :: 0 :: 6 :: 0 :: 0 :: d2 :: d3 :: d4 :: d5 :: rest) := by
      rw [read_exact_cons_ok 4 _ (by simp only [List.length_cons]; omega)]
      rfl
    have hre2 : read_exact 4
        (0 :: 0 :: 0 :: 6 :: 0 :: 0 :: d2 :: d3 :: d4 :: d5 :: rest) =
        .ok ([0, 0, 0, 6], 0 :: 0 :: d2 :: d3 :: d4 :: d5 :: rest) := by
      rw [read_exact_cons_ok 4 _ (by simp only [List.length_cons]; omega)]
      rfl
    have hre3 : read_exact EXPECTED_INFO_SIZE_BYTES
        (0 :: 0 :: d2 :: d3 :: d4 :: d5 :: rest) =
        .ok ([0, 0, d2, d3, d4, d5], rest) :=
      read_exact_cons_ok 6 _ (by simp only [List.length_cons]; omega)
    unfold parse_header
    simp [hre1, hre2, hre3, u16_from_be,
      show u32_from_be [0x4d, 0x54, 0x68, 0x64] = HEADER_MARKER from by decide,
      show u32_from_be [0, 0, 0, 6] = EXPECTED_INFO_SIZE_BYTES from by decide]
  · intro d2 d3 d4 d5 rest
    have hre1 : read_exact 4 (0x4d :: 0x54 :: 0x68 :: 0x64 :: 0 :: 0 :: 0 ::
        6 :: 0 :: 1 :: d2 :: d3 :: d4 :: d5 :: rest) =
        .ok ([0x4d, 0x54, 0x68, 0x64],
          0 :: 0 :: 0 :: 6 :: 0 :: 1 :: d2 :: d3 :: d4 :: d5 :: rest) := by
      rw [read_exact_cons_ok 4 _ (by simp only [List.length_cons]; omega)]
      rfl
    have hre2 : read_exact 4
        (0 :: 0 :: 0 :: 6 :: 0 :: 1 :: d2 :: d3 :: d4 :: d5 :: rest) =
        .ok ([0, 0, 0, 6], 0 :: 1 :: d2 :: d3 :: d4 :: d5 :: rest) := by
      rw [read_exact_cons_ok 4 _ (by simp only [List.length_cons]; omega)]
      rfl
    have hre3 : read_exact EXPECTED_INFO_SIZE_BYTES
        (0 :: 1 :: d2 :: d3 :: d4 :: d5 :: rest) =
        .ok ([0, 1, d2, d3, d4, d5], rest) :=
      read_exact_cons_ok 6 _ (by simp only [List.length_cons]; omega)
    unfold parse_header
    simp [hre1, hre2, hre3, u16_from_be,
      show u32_from_be [0x4d, 0x54, 0x68, 0x64] = HEADER_MARKER from by decide,
      show u32_from_be [0, 0, 0, 6] = EXPECTED_INFO_SIZE_BYTES from by decide]
  · intro d2 d3 d4 d5 rest
    have hre1 : read_exact 4 (0x4d :: 0x54 :: 0x68 :: 0x64 :: 0 :: 0 :: 0 ::
        6 :: 0 :: 2 :: d2 :: d3 :: d4 :: d5 :: rest) =
        .ok ([0x4d, 0x54, 0x68, 0x64],
          0 :: 0 :: 0 :: 6 :: 0 :: 2 :: d2 :: d3 :: d4 :: d5 :: rest) := by
      rw [read_exact_cons_ok 4 _ (by simp only [List.length_cons]; omega)]
      rfl
    have hre2 : read_exact 4
        (0 :: 0 :: 0 :: 6 :: 0 :: 2 :: d2 :: d3 :: d4 :: d5 :: rest) =
        .ok ([0, 0, 0, 6], 0 :: 2 :: d2 :: d3 :: d4 :: d5 :: rest) := by
      rw [read_exact_cons_ok 4 _ (by simp only [List.length_cons]; omega)]
      rfl
    have hre3 : read_exact EXPECTED_INFO_SIZE_BYTES
        (0 :: 2 :: d2 :: d3 :: d4 :: d5 :: rest) =
        .ok ([0, 2, d2, d3, d4, d5], rest) :=
      read_exact_cons_ok 6 _ (by simp only [List.length_cons]; omega)
    unfold parse_header
    simp [hre1, hre2, hre3, u16_from_be,
      show u32_from_be [0x4d, 0x54, 0x68, 0x64] = HEADER_MARKER from by decide,
      show u32_from_be [0, 0, 0, 6] = EXPECTED_INFO_SIZE_BYTES from by decide]
  · rfl

theorem claim_C7_parse_header_witness :
    parse_header [0, 0, 0, 0] = .error .malformedHeaderMarker := by
  exact claim_C7_parse_header.1 0 0 0 0 [] (by decide) (by decide) (by decide)
    (by decide) (by decide)

/-- C9: for every input stream, `parse_track` never reaches the
`unreachable!` branch of `extract_midi` (system status with low nibble 0,
that is status `0xF0`): the running-status cell starts absent and never
comes to hold `0xF0`, because `extract_event` routes `0xF0` first bytes to
the sysex branch before `extract_midi` can store them. -/
theorem claim_C9_sysex_branch_unreachable (stream : List Nat) :
    parse_track stream ≠ Except.error MidiError.panicSysexInExtractMidi := by
  intro h
  unfold parse_track at h
  split at h
  next e heq =>
    injection h with h'
    subst h'
    exact absurd (read_exact_error _ _ _ heq) (by simp)
  next marker_buf s1 heq =>
    split at h
    · injection h with h'
      exact absurd h' (by simp)
    · split at h
      next e heq2 =>
        injection h with h'
        subst h'
        exact absurd (read_exact_error _ _ _ heq2) (by simp)
      next length_buf s2 heq2 =>
        split at h
        next e heq3 =>
          injection h with h'
          subst h'
          exact absurd (read_exact_error _ _ _ heq3) (by simp)
        next track_buf s3 heq3 =>
          exact parse_track_loop_no_panic track_buf.length none track_buf []
            (Nat.le_refl _) trivial h

/-- Helper for the C10 witness: an empty track body parses to no events. -/
theorem parse_track_empty_body :
    parse_track [0x4d, 0x54, 0x72, 0x6b, 0, 0, 0, 0] = .ok [] := by
  have hloop : parse_track_loop none [] [] = .ok [] := by
    rw [parse_track_loop]
    rw [dif_pos rfl]
  simp [parse_track, read_exact, u32_from_be, TRACK_MARKER, hloop]

/-- C10: every successful VLQ decode returns a value of at most
`0x0FFFFFFF` (only the low 28 bits can be set) and advances the cursor by
1 to 4 bytes; in particular every delta time stored in an event by
`parse_track` is below `2^28`. -/
theorem claim_C10_vlq_bounds :
    (∀ (bytes : List Nat) (v : Nat) (r : List Nat),
      extract_vlq bytes = (.ok v, r) →
      v ≤ 0x0FFFFFFF ∧ r.length + 1 ≤ bytes.length ∧
        bytes.length ≤ r.length + 4) ∧
    (∀ (stream : List Nat) (evs : List Event),
      parse_track stream = .ok evs →
      ∀ e ∈ evs, e.delta_time < 2 ^ 28) := by
  constructor
  · intro bytes v r h
    refine ⟨extract_vlq_go_ok_bound bytes 0 0 v r (by omega) (by norm_num) h,
      ?_, ?_⟩
    · have hne : bytes ≠ [] := by
        intro hb
        subst hb
        simp [extract_vlq, extract_vlq_go] at h
      have hlt := extract_vlq_snd_lt bytes hne
      rw [h] at hlt
      exact hlt
    · have hcon := extract_vlq_go_consume bytes 0 0 (by omega)
      have h' : extract_vlq_go 0 0 bytes = (.ok v, r) := h
      rw [h'] at hcon
      exact hcon
  · intro stream evs h e he
    have hp : (2 : Nat) ^ 28 = 268435456 := by norm_num
    unfold parse_track at h
    split at h
    · exact absurd h (by simp)
    next marker_buf s1 heq =>
      split at h
      · exact absurd h (by simp)
      · split at h
        · exact absurd h (by simp)
        next length_buf s2 heq2 =>
          split at h
          · exact absurd h (by simp)
          next track_buf s3 heq3 =>
            have hd := parse_track_loop_delta track_buf.length none track_buf
              [] evs (Nat.le_refl _) (by simp) h e he
            omega

theorem claim_C10_vlq_bounds_witness :
    ((0 : Nat) ≤ 0x0FFFFFFF ∧ ([] : List Nat).length + 1 ≤
      ([0x00] : List Nat).length ∧ ([0x00] : List Nat).length ≤
      ([] : List Nat).length + 4) ∧
    (∀ e ∈ ([] : List Event), e.delta_time < 2 ^ 28) :=
  ⟨claim_C10_vlq_bounds.1 [0x00] 0 [] rfl,
    claim_C10_vlq_bounds.2 [0x4d, 0x54, 0x72, 0x6b, 0, 0, 0, 0] []
      parse_track_empty_body⟩

end MidiRs
